import Mathlib

/-!
Shallow embedding of the semi-supervised DCGAN training script
(`model-MNIST-cv.py`) and proofs about it.

Conventions:
- machine floats are modelled by `ℚ` (all claim-relevant arithmetic is exact);
  the generator's `tanh` output (claim C5) is modelled over `ℝ`;
- images are flattened pixel lists (`List ℚ`);
- stochastic inputs (random indices, Gaussian noise) and the external tensor
  engine (Keras layer forward passes, per-sample loss values returned by
  `train_on_batch`) are supplied by oracle parameters: the embedding records
  exactly which arguments the script passes to each engine call and how it
  combines the returned values.
-/

/-- Number of genuine digit classes (`self.num_classes = 10`, line 29). -/
def num_classes : Nat := 10

/-- Embedding of `keras.utils.to_categorical`: one-hot row of length
`numClasses` with a 1 at position `y` (zero row when `y` is out of range). -/
def to_categorical (y : Nat) (numClasses : Nat) : List ℚ :=
  (List.range numClasses).map (fun i => if i = y then 1 else 0)

/-- Validity-head class-weight map `cw1 = {0: 1, 1: 1}` (line 170). -/
def cw1 : Nat → ℚ := fun _ => 1

/-- Class-head class-weight map (lines 171-172):
`cw2 = {i: num_classes / half_batch for i in range(num_classes)}` and
`cw2[num_classes] = 1 / half_batch`.  The dict's domain is `0..num_classes`;
indices outside it are mapped to 0 here. -/
def cw2 (half_batch : Nat) (i : Nat) : ℚ :=
  if i < num_classes then (num_classes : ℚ) / half_batch
  else if i = num_classes then 1 / (half_batch : ℚ)
  else 0

/-- C1: counterexample.  At batch_size = 32 (half_batch = 16) the claimed
identity `weight(fake) * half_batch = weight(real) * (half_batch / num_classes)
* num_classes` evaluates to `1 = 10`, which is false: the fake half's total
weighted mass is 1 while the real half's (uniform labels) is `num_classes`. -/
theorem C1_counterexample :
    ¬ (cw2 16 num_classes * 16 =
       cw2 16 0 * ((16 : ℚ) / num_classes) * num_classes) := by
  norm_num [cw2, num_classes]

/-- C1 (amended): for every even positive batch size, with
`half_batch = batch_size / 2`, the class-head weight map assigns
`num_classes / half_batch` to each genuine class and `1 / half_batch` to the
sentinel, and `weight(fake) * half_batch = weight(real) * (half_batch /
num_classes)`: the fake half's total weighted mass (= 1) equals the weighted
mass of each single real class under uniform labels, so the real half's total
mass is `num_classes` times the fake half's. -/
theorem C1_amended (batch_size half_batch : Nat)
    (hev : 2 ∣ batch_size) (hpos : 0 < batch_size)
    (hh : half_batch = batch_size / 2) :
    (∀ c < num_classes, cw2 half_batch c = (num_classes : ℚ) / half_batch) ∧
    cw2 half_batch num_classes = 1 / (half_batch : ℚ) ∧
    cw2 half_batch num_classes * half_batch
      = cw2 half_batch 0 * ((half_batch : ℚ) / num_classes) ∧
    cw2 half_batch 0 * ((half_batch : ℚ) / num_classes) * num_classes
      = num_classes * (cw2 half_batch num_classes * half_batch) := by
  obtain ⟨m, hm2⟩ := hev
  have hm : 0 < half_batch := by omega
  have hm0 : (half_batch : ℚ) ≠ 0 := by exact_mod_cast hm.ne'
  have e0 : cw2 half_batch 0 = (num_classes : ℚ) / half_batch := by
    simp [cw2, num_classes]
  have e1 : cw2 half_batch num_classes = 1 / (half_batch : ℚ) := by
    simp [cw2, num_classes]
  refine ⟨fun c hc => ?_, e1, ?_, ?_⟩
  · simp [cw2, hc]
  · rw [e0, e1]
    have h10 : (num_classes : ℚ) = 10 := by norm_num [num_classes]
    rw [h10]
    field_simp
  · rw [e0, e1]
    have h10 : (num_classes : ℚ) = 10 := by norm_num [num_classes]
    rw [h10]
    field_simp

/-- C1 (amended) at a concrete instance: batch_size = 32, half_batch = 16. -/
theorem C1_amended_witness :
    (2 ∣ 32) ∧ (0 < 32) ∧ (16 = 32 / 2) ∧
    ((∀ c < num_classes, cw2 16 c = (num_classes : ℚ) / 16) ∧
     cw2 16 num_classes = 1 / (16 : ℚ) ∧
     cw2 16 num_classes * 16 = cw2 16 0 * ((16 : ℚ) / num_classes) ∧
     cw2 16 0 * ((16 : ℚ) / num_classes) * num_classes
       = num_classes * (cw2 16 num_classes * 16)) :=
  ⟨by decide, by decide, by decide,
   C1_amended 32 16 (by decide) (by decide) (by decide)⟩

/-- Image as a flattened list of pixel values. -/
def Image : Type := List ℚ

instance : Inhabited Image := ⟨([] : List ℚ)⟩

/-- Arguments of one `discriminator.train_on_batch(imgs, [validity, labels],
class_weight=[cw1, cw2])` call (lines 197-198). -/
structure DiscCall where
  images : List Image
  validity : List ℚ
  classTargets : List (List ℚ)
deriving Inhabited

/-- Arguments of the `combined.train_on_batch(noise, validity, ...)` call
(line 209). -/
structure GenCall where
  noiseCount : Nat
  validity : List ℚ
deriving Inhabited

/-- Observable record of one loop iteration of `DCGAN.train` (lines 174-214):
the two discriminator batch calls in execution order (real first, fake
second), the combined-model call, and the loss values the script computes. -/
structure EpochTrace where
  dCalls : List DiscCall
  gen : GenCall
  d_loss : List ℚ
  g_loss : ℚ
deriving Inhabited

/-- External inputs of one training run: the random streams consumed by
`np.random` and the values returned by the external tensor engine.
`idxO e j` is the j-th raw draw of `np.random.randint(0, N, half_batch)` in
epoch e (reduced mod N by the embedding, matching the range of randint);
`noiseO`/`genNoiseO` are the Gaussian draws for the discriminator and
generator steps; `genPredict` is the row-wise semantics of
`generator.predict`; `dLossRealO`, `dLossFakeO`, `gLossO` are the loss
vectors/scalars returned by the two `discriminator.train_on_batch` calls and
the `combined.train_on_batch` call. -/
structure Oracles where
  idxO : Nat → Nat → Nat
  noiseO : Nat → Nat → List ℚ
  genNoiseO : Nat → Nat → List ℚ
  genPredict : List ℚ → Image
  dLossRealO : Nat → List ℚ
  dLossFakeO : Nat → List ℚ
  gLossO : Nat → ℚ

/-- One iteration of the training loop body (lines 179-209), recording the
arguments of the three engine calls and the combined loss `d_loss = 0.5 *
np.add(d_loss_real, d_loss_fake)` (elementwise, line 199). -/
def trainEpoch (X : List Image) (y : List Nat) (half_batch batch_size : Nat)
    (o : Oracles) (epoch : Nat) : EpochTrace :=
  let idx := (List.range half_batch).map (fun j => o.idxO epoch j % X.length)
  let imgs := idx.map (fun i => X.getD i default)
  let noise := (List.range half_batch).map (o.noiseO epoch)
  let gen_imgs := noise.map o.genPredict
  let valid := List.replicate half_batch (1 : ℚ)
  let fake := List.replicate half_batch (0 : ℚ)
  let labels := idx.map (fun i => to_categorical (y.getD i 0) (num_classes + 1))
  let fake_labels :=
    List.replicate half_batch (to_categorical num_classes (num_classes + 1))
  let d_loss_real := o.dLossRealO epoch
  let d_loss_fake := o.dLossFakeO epoch
  let d_loss :=
    List.zipWith (fun a b => (1 / 2 : ℚ) * (a + b)) d_loss_real d_loss_fake
  let gnoise := (List.range batch_size).map (o.genNoiseO epoch)
  let validity := List.replicate batch_size (1 : ℚ)
  { dCalls := [⟨imgs, valid, labels⟩, ⟨gen_imgs, fake, fake_labels⟩],
    gen := ⟨gnoise.length, validity⟩,
    d_loss := d_loss,
    g_loss := o.gLossO epoch }

/-- Embedding of `self.training_history` (lines 30-35): a dict of four
append-only metric lists keyed `D_loss`, `D_acc`, `G_loss`, `G_acc`. -/
structure TrainingHistory where
  D_loss : List ℚ
  D_acc : List ℚ
  G_loss : List ℚ
  G_acc : List ℚ
deriving Inhabited

/-- The four `append` statements at the end of each epoch (lines 211-214):
`D_loss ← d_loss[0]`, `D_acc ← 100*d_loss[3]`, `G_loss ← g_loss`,
`G_acc ← 100*d_loss[4]`. -/
def appendHistory (h : TrainingHistory) (t : EpochTrace) : TrainingHistory :=
  { D_loss := h.D_loss ++ [t.d_loss.getD 0 0],
    D_acc := h.D_acc ++ [100 * t.d_loss.getD 3 0],
    G_loss := h.G_loss ++ [t.g_loss],
    G_acc := h.G_acc ++ [100 * t.d_loss.getD 4 0] }

/-- Embedding of `DCGAN.train` (lines 162-214): `half_batch = int(batch_size
/ 2)`, then the per-epoch loop.  Returns the list of epoch traces in order
together with the final training history.  (The `save_interval` branch only
performs I/O and is omitted.) -/
def train (X : List Image) (y : List Nat) (epochs batch_size : Nat)
    (o : Oracles) : List EpochTrace × TrainingHistory :=
  let half_batch := batch_size / 2
  (List.range epochs).foldl
    (fun acc epoch =>
      let t := trainEpoch X y half_batch batch_size o epoch
      (acc.1 ++ [t], appendHistory acc.2 t))
    ([], ⟨[], [], [], []⟩)

/-- Unfolding one epoch off the end of a run. -/
theorem train_succ (X : List Image) (y : List Nat) (E batch_size : Nat)
    (o : Oracles) :
    train X y (E + 1) batch_size o =
      ((train X y E batch_size o).1
         ++ [trainEpoch X y (batch_size / 2) batch_size o E],
       appendHistory (train X y E batch_size o).2
         (trainEpoch X y (batch_size / 2) batch_size o E)) := by
  simp [train, List.range_succ]

/-- The trace of a run is the per-epoch trace mapped over the epoch range. -/
theorem train_traces (X : List Image) (y : List Nat) (E batch_size : Nat)
    (o : Oracles) :
    (train X y E batch_size o).1 =
      (List.range E).map (trainEpoch X y (batch_size / 2) batch_size o) := by
  induction E with
  | zero => simp [train]
  | succ n ih =>
      rw [train_succ, ih, List.range_succ]
      simp

/-- Trace of epoch `e` in a run of `E` epochs. -/
def traceAt (X : List Image) (y : List Nat) (E batch_size : Nat)
    (o : Oracles) (e : Nat) : EpochTrace :=
  (train X y E batch_size o).1.getD e default

/-- Training history after a run of `E` epochs. -/
def historyAt (X : List Image) (y : List Nat) (E batch_size : Nat)
    (o : Oracles) : TrainingHistory :=
  (train X y E batch_size o).2

/-- Within range, the trace of epoch `e` is the loop body at `e`. -/
theorem traceAt_eq (X : List Image) (y : List Nat) (E batch_size e : Nat)
    (o : Oracles) (he : e < E) :
    traceAt X y E batch_size o e
      = trainEpoch X y (batch_size / 2) batch_size o e := by
  unfold traceAt
  rw [train_traces]
  rw [List.getD_eq_getElem?_getD]
  simp [List.getElem?_map, List.getElem?_range, he]

/-- Concrete oracle used for witness instances: every loss value returned by
the engine is 2, all random draws are zero. -/
def oracle0 : Oracles :=
  { idxO := fun _ _ => 0,
    noiseO := fun _ _ => [],
    genNoiseO := fun _ _ => [],
    genPredict := fun _ => (default : Image),
    dLossRealO := fun _ => [2, 2, 2, 2, 2],
    dLossFakeO := fun _ => [2, 2, 2, 2, 2],
    gLossO := fun _ => 2 }

/-- C3: for every even batch size, `half_batch = batch_size / 2` exactly
(2 * (batch_size/2) = batch_size), and in every epoch the loop makes exactly
two discriminator training calls in order — first `half_batch` real samples
with validity target 1, then `half_batch` generated samples with validity
target 0 — while the generator step uses `batch_size` latent vectors with
validity target 1 for every sample. -/
theorem C3_batch_sizes (X : List Image) (y : List Nat)
    (E batch_size e : Nat) (o : Oracles)
    (hev : 2 ∣ batch_size) (he : e < E) :
    2 * (batch_size / 2) = batch_size ∧
    (traceAt X y E batch_size o e).dCalls.length = 2 ∧
    ((traceAt X y E batch_size o e).dCalls.getD 0 default).images.length
      = batch_size / 2 ∧
    ((traceAt X y E batch_size o e).dCalls.getD 0 default).validity
      = List.replicate (batch_size / 2) (1 : ℚ) ∧
    ((traceAt X y E batch_size o e).dCalls.getD 1 default).images.length
      = batch_size / 2 ∧
    ((traceAt X y E batch_size o e).dCalls.getD 1 default).validity
      = List.replicate (batch_size / 2) (0 : ℚ) ∧
    (traceAt X y E batch_size o e).gen.noiseCount = batch_size ∧
    (traceAt X y E batch_size o e).gen.validity
      = List.replicate batch_size (1 : ℚ) := by
  rw [traceAt_eq X y E batch_size e o he]
  refine ⟨Nat.two_mul_div_two_of_even (even_iff_two_dvd.mpr hev), ?_⟩
  simp [trainEpoch]

/-- C3 at a concrete instance: one image, one epoch, batch size 4. -/
theorem C3_batch_sizes_witness :
    (2 ∣ 4) ∧ (0 < 1) ∧
    (2 * (4 / 2) = 4 ∧
     (traceAt [[(0 : ℚ)]] [0] 1 4 oracle0 0).dCalls.length = 2 ∧
     ((traceAt [[(0 : ℚ)]] [0] 1 4 oracle0 0).dCalls.getD 0 default).images.length
       = 4 / 2 ∧
     ((traceAt [[(0 : ℚ)]] [0] 1 4 oracle0 0).dCalls.getD 0 default).validity
       = List.replicate (4 / 2) (1 : ℚ) ∧
     ((traceAt [[(0 : ℚ)]] [0] 1 4 oracle0 0).dCalls.getD 1 default).images.length
       = 4 / 2 ∧
     ((traceAt [[(0 : ℚ)]] [0] 1 4 oracle0 0).dCalls.getD 1 default).validity
       = List.replicate (4 / 2) (0 : ℚ) ∧
     (traceAt [[(0 : ℚ)]] [0] 1 4 oracle0 0).gen.noiseCount = 4 ∧
     (traceAt [[(0 : ℚ)]] [0] 1 4 oracle0 0).gen.validity
       = List.replicate 4 (1 : ℚ)) :=
  ⟨by decide, by decide,
   C3_batch_sizes [[(0 : ℚ)]] [0] 1 4 0 oracle0 (by decide) (by decide)⟩

/-- C4 (amended): the training history is append-only and holds one record
per epoch: after `E` epochs all four metric lists have length exactly `E`,
and extending a run by one epoch appends exactly one value to each list —
the discriminator loss `d_loss[0]`, the discriminator accuracy
`100 * d_loss[3]`, the generator loss `g_loss`, and the `G_acc` metric
`100 * d_loss[4]` of that epoch.  The epoch number itself is not stored: it
is implicit as the record's position in the sequence. -/
theorem C4_history (X : List Image) (y : List Nat) (bs : Nat) (o : Oracles) :
    (∀ E, (historyAt X y E bs o).D_loss.length = E ∧
          (historyAt X y E bs o).D_acc.length = E ∧
          (historyAt X y E bs o).G_loss.length = E ∧
          (historyAt X y E bs o).G_acc.length = E) ∧
    (∀ E,
      (historyAt X y (E + 1) bs o).D_loss
        = (historyAt X y E bs o).D_loss
            ++ [(trainEpoch X y (bs / 2) bs o E).d_loss.getD 0 0] ∧
      (historyAt X y (E + 1) bs o).D_acc
        = (historyAt X y E bs o).D_acc
            ++ [100 * (trainEpoch X y (bs / 2) bs o E).d_loss.getD 3 0] ∧
      (historyAt X y (E + 1) bs o).G_loss
        = (historyAt X y E bs o).G_loss
            ++ [(trainEpoch X y (bs / 2) bs o E).g_loss] ∧
      (historyAt X y (E + 1) bs o).G_acc
        = (historyAt X y E bs o).G_acc
            ++ [100 * (trainEpoch X y (bs / 2) bs o E).d_loss.getD 4 0]) := by
  have hstep : ∀ E,
      historyAt X y (E + 1) bs o
        = appendHistory (historyAt X y E bs o)
            (trainEpoch X y (bs / 2) bs o E) := by
    intro E
    unfold historyAt
    rw [train_succ]
  constructor
  · intro E
    induction E with
    | zero => simp [historyAt, train]
    | succ n ih =>
        rw [hstep n]
        simp [appendHistory, ih.1, ih.2.1, ih.2.2.1, ih.2.2.2]
  · intro E
    rw [hstep E]
    simp [appendHistory]

/-- C4: counterexample to the "five metrics including the epoch" part.  In a
concrete one-epoch run every engine-returned loss value is 2, so the single
stored record is (2, 200, 2, 200): it has exactly the four metric components
and none of them equals the epoch number 0 — the epoch is not one of the
stored metrics, contradicting the claim that each record contains five
metrics of which the epoch is one. -/
theorem C4_counterexample :
    (historyAt [[(0 : ℚ)]] [0] 1 2 oracle0).D_loss = [2] ∧
    (historyAt [[(0 : ℚ)]] [0] 1 2 oracle0).D_acc = [200] ∧
    (historyAt [[(0 : ℚ)]] [0] 1 2 oracle0).G_loss = [2] ∧
    (historyAt [[(0 : ℚ)]] [0] 1 2 oracle0).G_acc = [200] ∧
    ((historyAt [[(0 : ℚ)]] [0] 1 2 oracle0).D_loss.getD 0 0 ≠ (0 : ℚ) ∧
     (historyAt [[(0 : ℚ)]] [0] 1 2 oracle0).D_acc.getD 0 0 ≠ (0 : ℚ) ∧
     (historyAt [[(0 : ℚ)]] [0] 1 2 oracle0).G_loss.getD 0 0 ≠ (0 : ℚ) ∧
     (historyAt [[(0 : ℚ)]] [0] 1 2 oracle0).G_acc.getD 0 0 ≠ (0 : ℚ)) := by
  have h : historyAt [[(0 : ℚ)]] [0] 1 2 oracle0
      = ⟨[2], [200], [2], [200]⟩ := by
    simp [historyAt, train, trainEpoch, appendHistory, oracle0,
          List.range_succ]
    norm_num
  rw [h]
  norm_num

/-- Keras class-weight semantics for one output head: each per-sample loss is
scaled by the weight of that sample's target class, then the batch loss is
the mean of the scaled values. -/
def weightedMeanLoss (w : Nat → ℚ) (targets : List Nat)
    (perSample : List ℚ) : ℚ :=
  (List.zipWith (fun c l => w c * l) targets perSample).sum / targets.length

/-- Modelled from the spec: the total batch loss of a Keras model compiled
with several output heads is the sum over heads of `loss_weight *
(class-weighted mean per-sample loss)`.  Each entry is (loss weight,
class-weight map, per-sample target classes, per-sample losses). -/
def totalBatchLoss (heads : List (ℚ × (Nat → ℚ) × List Nat × List ℚ)) : ℚ :=
  (heads.map (fun x => x.1 * weightedMeanLoss x.2.1 x.2.2.1 x.2.2.2)).sum

/-- The discriminator's compiled objective (lines 49-52): two heads —
binary_crossentropy on validity and categorical_crossentropy on the class
distribution — with `loss_weights=[0.5, 0.5]` and class-weight maps
`[cw1, cw2]`. -/
def discBatchLoss (half_batch : Nat) (validTargets classTargets : List Nat)
    (bce cce : List ℚ) : ℚ :=
  totalBatchLoss
    [((1 / 2 : ℚ), cw1, validTargets, bce),
     ((1 / 2 : ℚ), cw2 half_batch, classTargets, cce)]

/-- Index access into the elementwise average of two loss vectors. -/
theorem zipWith_avg_getD (l1 l2 : List ℚ) (i : Nat)
    (h1 : i < l1.length) (h2 : i < l2.length) :
    (List.zipWith (fun a b => (1 / 2 : ℚ) * (a + b)) l1 l2).getD i 0
      = (1 / 2 : ℚ) * (l1.getD i 0 + l2.getD i 0) := by
  have hl : i < (List.zipWith (fun a b => (1 / 2 : ℚ) * (a + b)) l1 l2).length := by
    rw [List.length_zipWith]; omega
  rw [List.getD_eq_getElem _ _ hl, List.getElem_zipWith,
      List.getD_eq_getElem _ _ h1, List.getD_eq_getElem _ _ h2]

/-- C6: in every epoch the reported `d_loss` vector is the elementwise simple
average `0.5 * (d_loss_real + d_loss_fake)` of the two loss vectors returned
by the real and fake discriminator steps, and the discriminator's compiled
batch objective is the weighted sum `0.5 * (class-weighted binary loss) + 0.5
* (class-weighted multi-class loss)`. -/
theorem C6_loss_combination (X : List Image) (y : List Nat)
    (E bs e i : Nat) (o : Oracles)
    (half_batch : Nat) (vt ct : List Nat) (bce cce : List ℚ)
    (he : e < E)
    (h1 : i < (o.dLossRealO e).length) (h2 : i < (o.dLossFakeO e).length) :
    (traceAt X y E bs o e).d_loss.getD i 0
      = (1 / 2 : ℚ) * ((o.dLossRealO e).getD i 0 + (o.dLossFakeO e).getD i 0) ∧
    discBatchLoss half_batch vt ct bce cce
      = (1 / 2 : ℚ) * weightedMeanLoss cw1 vt bce
        + (1 / 2 : ℚ) * weightedMeanLoss (cw2 half_batch) ct cce := by
  constructor
  · rw [traceAt_eq X y E bs e o he]
    simp only [trainEpoch]
    exact zipWith_avg_getD _ _ _ h1 h2
  · simp [discBatchLoss, totalBatchLoss]

/-- C6 at a concrete instance. -/
theorem C6_loss_combination_witness :
    (0 < 1) ∧ (0 < (oracle0.dLossRealO 0).length) ∧
    (0 < (oracle0.dLossFakeO 0).length) ∧
    ((traceAt [[(0 : ℚ)]] [0] 1 2 oracle0 0).d_loss.getD 0 0
       = (1 / 2 : ℚ) * ((oracle0.dLossRealO 0).getD 0 0
           + (oracle0.dLossFakeO 0).getD 0 0) ∧
     discBatchLoss 16 [1] [3] [1] [1]
       = (1 / 2 : ℚ) * weightedMeanLoss cw1 [1] [1]
         + (1 / 2 : ℚ) * weightedMeanLoss (cw2 16) [3] [1]) :=
  ⟨by decide, by decide, by decide,
   C6_loss_combination [[(0 : ℚ)]] [0] 1 2 0 0 oracle0 16 [1] [3] [1] [1]
     (by decide) (by decide) (by decide)⟩

/-- C7: in every epoch, every generated image is assigned the sentinel class
`num_classes`, one-hot encoded with `num_classes + 1 = 11` categories; every
real sample's class target is a one-hot vector of length 11 built from its
integer label, the real validity targets are all 1, and a label of 3
one-hot-encodes to `[0,0,0,1,0,0,0,0,0,0,0]`. -/
theorem C7_label_encoding (X : List Image) (y : List Nat)
    (E bs e : Nat) (o : Oracles) (he : e < E) :
    ((traceAt X y E bs o e).dCalls.getD 1 default).classTargets
      = List.replicate (bs / 2) (to_categorical num_classes (num_classes + 1)) ∧
    (to_categorical num_classes (num_classes + 1)).length = 11 ∧
    (∀ t ∈ ((traceAt X y E bs o e).dCalls.getD 0 default).classTargets,
      t.length = 11 ∧ ∃ l, t = to_categorical l (num_classes + 1)) ∧
    ((traceAt X y E bs o e).dCalls.getD 0 default).validity
      = List.replicate (bs / 2) (1 : ℚ) ∧
    to_categorical 3 (num_classes + 1) = [0, 0, 0, 1, 0, 0, 0, 0, 0, 0, 0] := by
  rw [traceAt_eq X y E bs e o he]
  refine ⟨by simp [trainEpoch], by simp [to_categorical, num_classes], ?_,
          by simp [trainEpoch], by decide⟩
  intro t ht
  simp only [trainEpoch, List.getD_cons_zero, List.mem_map] at ht
  obtain ⟨j, _, rfl⟩ := ht
  exact ⟨by simp [to_categorical, num_classes], _, rfl⟩

/-- C7 at a concrete instance: one epoch, batch size 4, label 3. -/
theorem C7_label_encoding_witness :
    (0 < 1) ∧
    (((traceAt [[(0 : ℚ)]] [3] 1 4 oracle0 0).dCalls.getD 1 default).classTargets
       = List.replicate (4 / 2) (to_categorical num_classes (num_classes + 1)) ∧
     (to_categorical num_classes (num_classes + 1)).length = 11 ∧
     (∀ t ∈ ((traceAt [[(0 : ℚ)]] [3] 1 4 oracle0 0).dCalls.getD 0
              default).classTargets,
       t.length = 11 ∧ ∃ l, t = to_categorical l (num_classes + 1)) ∧
     ((traceAt [[(0 : ℚ)]] [3] 1 4 oracle0 0).dCalls.getD 0 default).validity
       = List.replicate (4 / 2) (1 : ℚ) ∧
     to_categorical 3 (num_classes + 1) = [0, 0, 0, 1, 0, 0, 0, 0, 0, 0, 0]) :=
  ⟨by decide, C7_label_encoding [[(0 : ℚ)]] [3] 1 4 0 oracle0 (by decide)⟩

/-- Parameter stores of the two networks.  The combined model (lines 59-71)
holds references to both: the generator's parameters are trainable through
it, the discriminator's are frozen (`self.discriminator.trainable = False`,
line 63, set before `self.combined` is compiled). -/
structure GANParams where
  genP : List ℚ
  discP : List ℚ
deriving Inhabited

/-- Modelled from the spec: one gradient step of
`combined.train_on_batch` by the external tensor engine.  Because the
discriminator is frozen inside the combined model, only the generator's
parameters are moved (each against its gradient, scaled by the learning
rate); the discriminator's parameter store is returned untouched. -/
def generator_train_step (lr : ℚ) (grad : List ℚ) (s : GANParams) :
    GANParams :=
  { genP := List.zipWith (fun p g => p - lr * g) s.genP grad,
    discP := s.discP }

/-- C2: a combined-model training step leaves every discriminator parameter
identical and changes every generator parameter whose gradient is non-zero
(for a non-zero learning rate): only the generator is updated through the
combined path. -/
theorem C2_frozen_discriminator (lr : ℚ) (grad : List ℚ) (s : GANParams)
    (i : Nat) (hi : i < s.genP.length) (hg : i < grad.length)
    (hlr : lr ≠ 0) (hgz : grad.getD i 0 ≠ 0) :
    (generator_train_step lr grad s).discP = s.discP ∧
    (generator_train_step lr grad s).genP.getD i 0 ≠ s.genP.getD i 0 := by
  refine ⟨rfl, ?_⟩
  have hl : i < (List.zipWith (fun p g => p - lr * g) s.genP grad).length := by
    rw [List.length_zipWith]; omega
  show (List.zipWith (fun p g => p - lr * g) s.genP grad).getD i 0
      ≠ s.genP.getD i 0
  rw [List.getD_eq_getElem _ _ hl, List.getElem_zipWith,
      List.getD_eq_getElem _ _ hi]
  intro hEq
  rw [sub_eq_self] at hEq
  rw [List.getD_eq_getElem _ _ hg] at hgz
  exact hgz (by
    rcases mul_eq_zero.mp hEq with h | h
    · exact absurd h hlr
    · exact h)

/-- C2 at a concrete instance: learning rate 1, gradient [1],
generator parameter [0], discriminator parameters [5]. -/
theorem C2_frozen_discriminator_witness :
    (0 < 1) ∧ ((1 : ℚ) ≠ 0) ∧ (([(1 : ℚ)].getD 0 0) ≠ 0) ∧
    ((generator_train_step 1 [1] ⟨[0], [5]⟩).discP = ([5] : List ℚ) ∧
     (generator_train_step 1 [1] ⟨[0], [5]⟩).genP.getD 0 0
       ≠ ([(0 : ℚ)].getD 0 0)) :=
  ⟨by decide, by norm_num, by norm_num,
   C2_frozen_discriminator 1 [1] ⟨[0], [5]⟩ 0 (by decide) (by decide)
     (by norm_num) (by norm_num)⟩

/-- Embedding of `np.argmax` over one row: index of the first maximal
element. -/
def argmax (l : List ℚ) : Nat :=
  (List.range l.length).foldl
    (fun best i => if l.getD best 0 < l.getD i 0 then i else best) 0

/-- A fold that at each step keeps either its accumulator or the current
element ends at the initial value or at a list element. -/
theorem foldl_best_mem (f : Nat → Nat → Nat)
    (hf : ∀ b i, f b i = b ∨ f b i = i) :
    ∀ (is : List Nat) (b : Nat), is.foldl f b = b ∨ is.foldl f b ∈ is := by
  intro is
  induction is with
  | nil => intro b; exact Or.inl rfl
  | cons a t ih =>
      intro b
      simp only [List.foldl_cons]
      rcases ih (f b a) with h1 | h1
      · rcases hf b a with h2 | h2
        · exact Or.inl (h1.trans h2)
        · exact Or.inr (by rw [h1, h2]; exact List.mem_cons_self a t)
      · exact Or.inr (List.mem_cons_of_mem a h1)

/-- The argmax of a non-empty list is a valid index. -/
theorem argmax_lt_length (l : List ℚ) (h : l ≠ []) : argmax l < l.length := by
  have h0 : 0 < l.length := List.length_pos.mpr h
  have hmem := foldl_best_mem
    (fun best i => if l.getD best 0 < l.getD i 0 then i else best)
    (fun b i => by
      by_cases hc : l.getD b 0 < l.getD i 0
      · exact Or.inr (if_pos hc)
      · exact Or.inl (if_neg hc))
    (List.range l.length) 0
  unfold argmax
  rcases hmem with h1 | h1
  · rw [h1]; exact h0
  · exact List.mem_range.mp h1

/-- Embedding of the prediction formatting in `DCGAN.predict` (lines
293-296): given the class-head output rows, drop the last (sentinel) column
of each row and take the arg-max over the remaining columns. -/
def predict (classProbs : List (List ℚ)) : List Nat :=
  classProbs.map (fun row => argmax row.dropLast)

/-- C9: each prediction is the arg-max of its row with the last (sentinel)
column dropped, every prediction is a genuine class index (< num_classes, so
the sentinel class is never predicted), and the dropped column's value is
irrelevant: for any 10-entry row extended by any sentinel probability q, the
prediction equals the arg-max of the 10 genuine entries alone. -/
theorem C9_predict_drops_sentinel (classProbs : List (List ℚ)) (k : Nat)
    (r : List ℚ) (q : ℚ)
    (hk : k < classProbs.length)
    (hrow : (classProbs.getD k []).length = num_classes + 1)
    (hr : r.length = num_classes) :
    (predict classProbs).getD k 0 = argmax ((classProbs.getD k []).dropLast) ∧
    (predict classProbs).getD k 0 < num_classes ∧
    (r ++ [q]).dropLast = r ∧
    argmax ((r ++ [q]).dropLast) = argmax r := by
  have hmap : (predict classProbs).getD k 0
      = argmax ((classProbs.getD k []).dropLast) := by
    have hk2 : k < (predict classProbs).length := by
      simpa [predict] using hk
    rw [List.getD_eq_getElem _ _ hk2]
    simp only [predict, List.getElem_map]
    rw [List.getD_eq_getElem _ _ hk]
  have hdrop : (classProbs.getD k []).dropLast ≠ [] := by
    intro hnil
    have := congrArg List.length hnil
    rw [List.length_dropLast, hrow] at this
    simp [num_classes] at this
  have hlen : ((classProbs.getD k []).dropLast).length = num_classes := by
    rw [List.length_dropLast, hrow]
    omega
  refine ⟨hmap, ?_, List.dropLast_concat, ?_⟩
  · rw [hmap, ← hlen]
    exact argmax_lt_length _ hdrop
  · rw [List.dropLast_concat]

/-- C9 at a concrete instance: an 11-way row whose sentinel column has the
highest probability still yields a genuine class. -/
theorem C9_predict_drops_sentinel_witness :
    (0 < 1) ∧
    (([[(0 : ℚ), 0, 0, 0, 0, 0, 0, 0, 2, 0, 9]].getD 0 []).length
       = num_classes + 1) ∧
    (([(0 : ℚ), 0, 0, 0, 0, 0, 0, 0, 2, 0].length) = num_classes) ∧
    ((predict [[(0 : ℚ), 0, 0, 0, 0, 0, 0, 0, 2, 0, 9]]).getD 0 0
       = argmax (([[(0 : ℚ), 0, 0, 0, 0, 0, 0, 0, 2, 0, 9]].getD 0
           []).dropLast) ∧
     (predict [[(0 : ℚ), 0, 0, 0, 0, 0, 0, 0, 2, 0, 9]]).getD 0 0
       < num_classes ∧
     (([(0 : ℚ), 0, 0, 0, 0, 0, 0, 0, 2, 0] ++ [(9 : ℚ)]).dropLast)
       = [(0 : ℚ), 0, 0, 0, 0, 0, 0, 0, 2, 0] ∧
     argmax (([(0 : ℚ), 0, 0, 0, 0, 0, 0, 0, 2, 0] ++ [(9 : ℚ)]).dropLast)
       = argmax [(0 : ℚ), 0, 0, 0, 0, 0, 0, 0, 2, 0]) :=
  ⟨by decide, by decide, by decide,
   C9_predict_drops_sentinel [[(0 : ℚ), 0, 0, 0, 0, 0, 0, 0, 2, 0, 9]] 0
     [(0 : ℚ), 0, 0, 0, 0, 0, 0, 0, 2, 0] 9
     (by decide) (by decide) (by decide)⟩

/-- Activation kinds occurring in the generator stack. -/
inductive ActKind where
  | relu
  | tanh
deriving DecidableEq

/-- Layer descriptors of the Keras `Sequential` generator model: each
constructor mirrors one `model.add(...)` call. -/
inductive GLayer where
  | dense (units : Nat) (act : ActKind)
  | reshape (rows cols ch : Nat)
  | batchNorm (momentum : ℚ)
  | upSampling
  | conv2d (filters kernel : Nat)
  | activation (act : ActKind)

/-- The generator's layer stack exactly as built in `build_generator`
(lines 79-95): the final two layers are the 1-channel convolution and the
`tanh` activation, with no normalization after the output layer. -/
def generator_layers : List GLayer :=
  [GLayer.dense (128 * 7 * 7) ActKind.relu,
   GLayer.reshape 7 7 128,
   GLayer.batchNorm (4 / 5),
   GLayer.upSampling,
   GLayer.conv2d 128 3,
   GLayer.activation ActKind.relu,
   GLayer.batchNorm (4 / 5),
   GLayer.upSampling,
   GLayer.conv2d 64 3,
   GLayer.activation ActKind.relu,
   GLayer.batchNorm (4 / 5),
   GLayer.conv2d 1 3,
   GLayer.activation ActKind.tanh]

/-- Semantics of one layer on a (flattened, real-valued) tensor.  Standalone
`Activation` layers are interpreted concretely — pointwise rectification or
hyperbolic tangent; every parameterized layer (dense, reshape, batch
normalization, upsampling, convolution) is delegated to the external tensor
engine `eng`, about which nothing is assumed. -/
noncomputable def applyLayer (eng : GLayer → (Nat → ℝ) → (Nat → ℝ)) :
    GLayer → (Nat → ℝ) → (Nat → ℝ)
  | GLayer.activation ActKind.relu, t => fun i => max 0 (t i)
  | GLayer.activation ActKind.tanh, t => fun i => Real.tanh (t i)
  | l, t => eng l t

/-- Forward pass of a `Sequential` stack: apply the layers in order. -/
noncomputable def runLayers (eng : GLayer → (Nat → ℝ) → (Nat → ℝ))
    (ls : List GLayer) (input : Nat → ℝ) : Nat → ℝ :=
  ls.foldl (fun t l => applyLayer eng l t) input

/-- The real hyperbolic tangent takes values in [-1, 1]. -/
theorem real_tanh_bounds (x : ℝ) : -1 ≤ Real.tanh x ∧ Real.tanh x ≤ 1 := by
  have hc := Real.cosh_pos x
  constructor
  · rw [Real.tanh_eq_sinh_div_cosh, le_div_iff₀ hc]
    have h := Real.sinh_lt_cosh (-x)
    rw [Real.sinh_neg, Real.cosh_neg] at h
    linarith
  · rw [Real.tanh_eq_sinh_div_cosh, div_le_one hc]
    exact (Real.sinh_lt_cosh x).le

/-- C5: for any tensor-engine semantics of the parameterized layers and any
latent input, every component of the generator's output lies in the closed
interval [-1, 1]: the stack's final layer is the bounded `tanh` activation
and nothing (in particular no normalization) follows it. -/
theorem C5_generator_output_bounded
    (eng : GLayer → (Nat → ℝ) → (Nat → ℝ)) (input : Nat → ℝ) (i : Nat) :
    -1 ≤ runLayers eng generator_layers input i ∧
    runLayers eng generator_layers input i ≤ 1 := by
  have h : runLayers eng generator_layers input i
      = Real.tanh (runLayers eng generator_layers.dropLast input i) := by
    simp only [runLayers, generator_layers, List.dropLast,
               List.foldl_cons, List.foldl_nil]
    rfl
  rw [h]
  exact real_tanh_bounds _

/-- Rank of position `i` among earlier positions carrying the same label. -/
def rankInClass (labels : List Nat) (i : Nat) : Nat :=
  ((labels.take i).filter (fun l => l = labels.getD i 0)).length

/-- Fold assigned to position `i`: its within-class rank modulo `k`, dealing
each class round-robin over the folds so class proportions are preserved. -/
def foldAssign (labels : List Nat) (k i : Nat) : Nat :=
  rankInClass labels i % k

/-- Validation index set of fold `j`. -/
def validationFold (labels : List Nat) (k j : Nat) : List Nat :=
  (List.range labels.length).filter (fun i => foldAssign labels k i = j)

/-- Modelled from the spec: `stratified_kfold_split(labels, k, seed)` — the
dataset provider's stratified k-fold capability consumed at line 332
(`StratifiedKFold(n_splits=k, shuffle=True, random_state=seed).split`),
which is external library code.  Returns the k validation index sets. -/
def stratified_kfold_split (labels : List Nat) (k : Nat) : List (List Nat) :=
  (List.range k).map (validationFold labels k)

/-- Embedding of the `__main__` cross-validation loop (lines 344-360): for
each fold a fresh `DCGAN()` is constructed (its freshly initialized
parameters given by `initFresh`), trained on the fold, evaluated on the
fold, and the accuracy appended to `kfold_scores`. -/
def runCV (k : Nat) (initFresh : Nat → GANParams)
    (trainF : GANParams → Nat → GANParams)
    (evalAcc : GANParams → Nat → ℚ) : List ℚ :=
  (List.range k).foldl
    (fun scores f => scores ++ [evalAcc (trainF (initFresh f) f) f]) []

/-- A fold that appends one element per input equals the mapped list. -/
theorem foldl_append_map {α β : Type} (g : α → β) :
    ∀ (l : List α) (acc : List β),
      l.foldl (fun s x => s ++ [g x]) acc = acc ++ l.map g := by
  intro l
  induction l with
  | nil => intro acc; simp
  | cons a t ih => intro acc; simp [List.foldl_cons, ih]

/-- The cross-validation scores are one per fold, each computed from that
fold's freshly initialized model only. -/
theorem runCV_eq_map (k : Nat) (initFresh : Nat → GANParams)
    (trainF : GANParams → Nat → GANParams)
    (evalAcc : GANParams → Nat → ℚ) :
    runCV k initFresh trainF evalAcc
      = (List.range k).map (fun f => evalAcc (trainF (initFresh f) f) f) := by
  unfold runCV
  rw [foldl_append_map]
  simp

/-- Accessing the j-th fold of the split. -/
theorem stratified_kfold_split_getD (labels : List Nat) (k j : Nat)
    (hj : j < k) :
    (stratified_kfold_split labels k).getD j [] = validationFold labels k j := by
  rw [stratified_kfold_split, List.getD_eq_getElem?_getD]
  simp [List.getElem?_map, List.getElem?_range, hj]

/-- Characterization of validation-fold membership. -/
theorem mem_validationFold_iff (labels : List Nat) (k j i : Nat) :
    i ∈ validationFold labels k j
      ↔ i < labels.length ∧ foldAssign labels k i = j := by
  simp [validationFold, List.mem_filter, List.mem_range]

/-- C8: for every k ≥ 2 and label list in which each occurring class has at
least k members, the split yields exactly k validation index sets that
partition the index range exactly once — every fold's indices are valid,
and every index lies in exactly one fold — and the cross-validation driver
instantiates a fresh parameter triple for each fold: the fold scores are
exactly the per-fold values computed from each fold's own fresh
initialization, with one accuracy score collected per fold. -/
theorem C8_kfold_partition_fresh_models (labels : List Nat) (k : Nat)
    (initFresh : Nat → GANParams) (trainF : GANParams → Nat → GANParams)
    (evalAcc : GANParams → Nat → ℚ)
    (hk : 2 ≤ k) (hc : ∀ c ∈ labels, k ≤ labels.count c) :
    (stratified_kfold_split labels k).length = k ∧
    (∀ j < k, ∀ i ∈ (stratified_kfold_split labels k).getD j [],
      i < labels.length) ∧
    (∀ i < labels.length,
      ∃! j, j < k ∧ i ∈ (stratified_kfold_split labels k).getD j []) ∧
    runCV k initFresh trainF evalAcc
      = (List.range k).map (fun f => evalAcc (trainF (initFresh f) f) f) ∧
    (runCV k initFresh trainF evalAcc).length = k := by
  have hk0 : 0 < k := by omega
  refine ⟨by simp [stratified_kfold_split], ?_, ?_, runCV_eq_map _ _ _ _, ?_⟩
  · intro j hj i hi
    rw [stratified_kfold_split_getD labels k j hj] at hi
    exact ((mem_validationFold_iff labels k j i).mp hi).1
  · intro i hi
    have hjlt : foldAssign labels k i < k := by
      unfold foldAssign
      exact Nat.mod_lt _ hk0
    refine ⟨foldAssign labels k i, ⟨hjlt, ?_⟩, ?_⟩
    · rw [stratified_kfold_split_getD labels k (foldAssign labels k i) hjlt]
      exact (mem_validationFold_iff labels k _ i).mpr ⟨hi, rfl⟩
    · rintro j' ⟨hj', hmem⟩
      rw [stratified_kfold_split_getD labels k j' hj'] at hmem
      exact ((mem_validationFold_iff labels k j' i).mp hmem).2.symm
  · rw [runCV_eq_map]
    simp

/-- C8 at a concrete instance: four samples in two balanced classes, k = 2. -/
theorem C8_kfold_partition_fresh_models_witness :
    (2 ≤ 2) ∧ (∀ c ∈ [0, 0, 1, 1], 2 ≤ List.count c [0, 0, 1, 1]) ∧
    ((stratified_kfold_split [0, 0, 1, 1] 2).length = 2 ∧
     (∀ j < 2, ∀ i ∈ (stratified_kfold_split [0, 0, 1, 1] 2).getD j [],
       i < List.length [0, 0, 1, 1]) ∧
     (∀ i < List.length [0, 0, 1, 1],
       ∃! j, j < 2 ∧ i ∈ (stratified_kfold_split [0, 0, 1, 1] 2).getD j []) ∧
     runCV 2 (fun _ => ⟨[], []⟩) (fun s _ => s) (fun _ _ => 0)
       = (List.range 2).map
           (fun f => (fun (_ : GANParams) (_ : Nat) => (0 : ℚ))
             ((fun (s : GANParams) (_ : Nat) => s)
               ((fun _ => (⟨[], []⟩ : GANParams)) f) f) f) ∧
     (runCV 2 (fun _ => ⟨[], []⟩) (fun s _ => s) (fun _ _ => 0)).length = 2) :=
  ⟨by decide, by decide,
   C8_kfold_partition_fresh_models [0, 0, 1, 1] 2 (fun _ => ⟨[], []⟩)
     (fun s _ => s) (fun _ _ => 0) (by decide) (by decide)⟩

/-- Embedding of `DCGAN.evaluate_discriminator` (lines 222-234).  The
validity target is an all-ones column for the whole held-out set, the class
targets are one-hot encodings, and `discriminator.evaluate` — external
engine code — returns, per the compiled two-output model with accuracy
metrics, the score vector `[total_loss, validity_loss, class_loss,
validity_acc, class_acc]` (those five values are taken as arguments here).
The method returns `(scores[0], scores[3] * 100)`. -/
def evaluate_discriminator (y_test : List Nat)
    (total_loss validity_loss class_loss validity_acc class_acc : ℚ) :
    (List ℚ × List (List ℚ)) × (ℚ × ℚ) :=
  let valid := List.replicate y_test.length (1 : ℚ)
  let labels := y_test.map (fun t => to_categorical t (num_classes + 1))
  let scores : List ℚ :=
    [total_loss, validity_loss, class_loss, validity_acc, class_acc]
  ((valid, labels), (scores.getD 0 0, scores.getD 3 0 * 100))

/-- C10: `evaluate_discriminator` sets the validity target to 1 for every
held-out sample, and the accuracy it returns is exactly the validity-head
accuracy times 100 — not the class-head accuracy (whenever the two heads
disagree, the returned value differs from 100 times the class accuracy) —
and in the cross-validation driver the f-th collected fold score is exactly
that validity-head value of the f-th fold's trained model. -/
theorem C10_validity_head_score (y_test : List Nat)
    (tl vl cl va ca : ℚ) (k f : Nat)
    (initFresh : Nat → GANParams) (trainF : GANParams → Nat → GANParams)
    (yv : Nat → List Nat) (tlO vlO clO vaO caO : GANParams → Nat → ℚ)
    (hf : f < k) (hne : va ≠ ca) :
    (evaluate_discriminator y_test tl vl cl va ca).1.1
      = List.replicate y_test.length (1 : ℚ) ∧
    (evaluate_discriminator y_test tl vl cl va ca).2.2 = va * 100 ∧
    (evaluate_discriminator y_test tl vl cl va ca).2.2 ≠ ca * 100 ∧
    (runCV k initFresh trainF
        (fun p j => (evaluate_discriminator (yv j) (tlO p j) (vlO p j)
          (clO p j) (vaO p j) (caO p j)).2.2)).getD f 0
      = vaO (trainF (initFresh f) f) f * 100 := by
  refine ⟨rfl, rfl, ?_, ?_⟩
  · show va * 100 ≠ ca * 100
    intro h
    exact hne (mul_right_cancel₀ (by norm_num) h)
  · rw [runCV_eq_map]
    have hf2 : f < ((List.range k).map
        (fun j => (evaluate_discriminator (yv j)
          (tlO (trainF (initFresh j) j) j) (vlO (trainF (initFresh j) j) j)
          (clO (trainF (initFresh j) j) j) (vaO (trainF (initFresh j) j) j)
          (caO (trainF (initFresh j) j) j)).2.2)).length := by
      simpa using hf
    rw [List.getD_eq_getElem _ _ hf2, List.getElem_map]
    simp [evaluate_discriminator]

/-- C10 at a concrete instance: two held-out samples, validity accuracy 1/2,
class accuracy 1/4; one fold. -/
theorem C10_validity_head_score_witness :
    (0 < 1) ∧ ((1 / 2 : ℚ) ≠ 1 / 4) ∧
    ((evaluate_discriminator [3, 7] 1 1 1 (1 / 2) (1 / 4)).1.1
       = List.replicate (List.length [3, 7]) (1 : ℚ) ∧
     (evaluate_discriminator [3, 7] 1 1 1 (1 / 2) (1 / 4)).2.2
       = (1 / 2 : ℚ) * 100 ∧
     (evaluate_discriminator [3, 7] 1 1 1 (1 / 2) (1 / 4)).2.2
       ≠ (1 / 4 : ℚ) * 100 ∧
     (runCV 1 (fun _ => ⟨[], []⟩) (fun s _ => s)
         (fun p j => (evaluate_discriminator ((fun _ => [3, 7]) j)
           ((fun (_ : GANParams) (_ : Nat) => (1 : ℚ)) p j)
           ((fun (_ : GANParams) (_ : Nat) => (1 : ℚ)) p j)
           ((fun (_ : GANParams) (_ : Nat) => (1 : ℚ)) p j)
           ((fun (_ : GANParams) (_ : Nat) => (1 / 2 : ℚ)) p j)
           ((fun (_ : GANParams) (_ : Nat) => (1 / 4 : ℚ)) p j)).2.2)).getD 0 0
       = (fun (_ : GANParams) (_ : Nat) => (1 / 2 : ℚ))
           ((fun (s : GANParams) (_ : Nat) => s)
             ((fun _ => (⟨[], []⟩ : GANParams)) 0) 0) 0 * 100) :=
  ⟨by decide, by norm_num,
   C10_validity_head_score [3, 7] 1 1 1 (1 / 2) (1 / 4) 1 0
     (fun _ => ⟨[], []⟩) (fun s _ => s) (fun _ => [3, 7])
     (fun _ _ => 1) (fun _ _ => 1) (fun _ _ => 1)
     (fun _ _ => 1 / 2) (fun _ _ => 1 / 4) (by decide) (by norm_num)⟩
